import Mathlib

/-!
Verification development for the pomelo-dns query pipeline.

Shallow embedding of the Rust sources:
  - `src/config/resolution.rs` (AAAA resolution rules, payload matching),
  - `src/config/mod.rs` (group attribution, rule chaining),
  - `src/config/group.rs` (IP ranges),
  - `src/cache.rs` (RR cache),
  - `src/handler.rs` (query pipeline, hosts stage, AAAA post-filter),
  - `src/resolves/dot.rs` (DoT transport, pooled-stream liveness loop).

Domain names (hickory `Name`) are modelled as their label lists; hickory
keeps label case, its `PartialEq` compares labels after ASCII lowercasing,
while `eq_case` / `zone_of_case` compare labels exactly.  String slicing
and parsing are implemented over `List Char` with structural recursion so
closed instances evaluate by `decide`.
-/

/-- A domain name as its list of labels, leftmost label first
(hickory `Name`, ignoring the `is_fqdn` flag which takes no part in
comparisons). -/
abbrev DName := List String

/-- ASCII lowercase of one character (hickory lowercases labels for its
case-insensitive comparisons). -/
def ascii_lower (c : Char) : Char :=
  if 'A' ≤ c && c ≤ 'Z' then Char.ofNat (c.toNat + 32) else c

/-- Lowercase every character of a label. -/
def lower_label (l : String) : String :=
  String.mk (l.data.map ascii_lower)

/-- Split a character list on a dot, `Rust str::split('.')` semantics:
`"a..b"` gives `["a", "", "b"]` and `""` gives `[""]`. -/
def ch_split_go (cur : List Char) : List Char → List (List Char)
  | [] => [cur.reverse]
  | c :: cs => if c = '.' then cur.reverse :: ch_split_go [] cs else ch_split_go (c :: cur) cs

/-- Split a character list on dots. -/
def ch_split (cs : List Char) : List (List Char) := ch_split_go [] cs

/-- Drop every leading dot (Rust `str::trim_start_matches('.')`). -/
def drop_leading_dots : List Char → List Char
  | [] => []
  | c :: cs => if c = '.' then drop_leading_dots cs else c :: cs

/-- Whether the character list starts with a dot (Rust `str::starts_with('.')`). -/
def starts_dot : List Char → Bool
  | [] => false
  | c :: _ => c = '.'

/-- A DNS label must be non-empty and at most 63 octets. -/
def label_ok (l : List Char) : Bool :=
  !l.isEmpty && l.length ≤ 63

/-- hickory `Name::from_ascii` on a character list: empty input or a lone
dot give the root name; otherwise a trailing dot is dropped and the rest is
split on dots, each label required non-empty and at most 63 characters.
(Character-set and total-length validation of the source are elided; no
claim depends on them.) -/
def name_from_chars (cs : List Char) : Option DName :=
  if cs.isEmpty then some []
  else if cs = ['.'] then some []
  else
    let body := if cs.getLast? = some '.' then cs.dropLast else cs
    let labels := ch_split body
    if labels.all label_ok then some (labels.map (fun l => String.mk l)) else none

/-- hickory `Name::from_ascii` on a string. -/
def name_from_ascii (s : String) : Option DName := name_from_chars s.data

/-- hickory `Name::eq_case`: case-sensitive label equality. -/
def eq_case (a b : DName) : Bool := a == b

/-- hickory `Name`'s `PartialEq`: labels compared after ASCII lowercasing. -/
def name_eq_ci (a b : DName) : Bool := a.map lower_label == b.map lower_label

/-- hickory `Name::zone_of_case`: `zone` is an ancestor of (or equal to)
`nm`, comparing labels case-sensitively; a zone is a suffix of the label
list. -/
def zone_of_case (zone nm : DName) : Bool := zone.isSuffixOf nm

/-- hickory `Name::is_wildcard`: the leftmost label is `*`. -/
def is_wildcard (n : DName) : Bool := n.head? == some "*"

/-- hickory `Name::base_name`: the name without its leftmost label. -/
def base_name (n : DName) : DName := n.tail

/-! Resolution rules (`src/config/resolution.rs`). -/

/-- `ResolutionDirective`. -/
inductive Directive where
  | allow
  | deny
  | pingable
  | country (iso : String)
deriving DecidableEq

/-- `ResolutionPayload`; `dom s` keeps the raw configured string
(`Domain(String)` in the source), `all` is the `ALL` payload. -/
inductive Payload where
  | all
  | dom (s : String)
deriving DecidableEq

/-- `Resolution`: a directive applied to a payload pattern. -/
structure Resolution where
  directive : Directive
  payload : Payload
deriving DecidableEq

/-- `Resolution::payload_match`: `All` always matches; a payload starting
with a dot is parsed (leading dots trimmed) and checked with
`zone_of_case`; a wildcard payload checks `zone_of_case` of its base name
and excludes the base name itself by the case-insensitive `Name`
equality; anything else is compared with `eq_case`.  A payload that fails
to parse matches nothing. -/
def payload_match (p : Payload) (domain : DName) : Bool :=
  match p with
  | Payload.all => true
  | Payload.dom s =>
    let cs := s.data
    if starts_dot cs then
      match name_from_chars (drop_leading_dots cs) with
      | some it => zone_of_case it domain
      | none => false
    else
      match name_from_chars cs with
      | some it =>
        if is_wildcard it then
          zone_of_case (base_name it) domain && !(name_eq_ci (base_name it) domain)
        else
          eq_case it domain
      | none => false

/-- `Resolution::check_is_allow`: `Allow` is true, `Deny` is false,
`Pingable` consults the ping cache / ICMP probe and `Country` the GeoIP
reader.  The two I/O outcomes are passed in as oracles: `png` is the
probe-or-cache verdict for the record's address, `geo` is the GeoIP
lookup result (`Ok(Some(iso))` as `some iso`, every failure as `none`;
the source's `args.mmdb.unwrap()` cannot fail because config loading
rejects `Country` rules when no GeoIP reader is configured). -/
def check_is_allow (png : Bool) (geo : Option String) (r : Resolution) : Bool :=
  match r.directive with
  | Directive.allow => true
  | Directive.deny => false
  | Directive.pingable => png
  | Directive.country iso => match geo with
    | some code => iso == code
    | none => false

/-- The rule loop of `Inner::is_allow_ipv6`: skip rules whose payload does
not match; the first matching rule returns `false` when its directive
check fails and otherwise breaks out, after which the function returns
`true`; an exhausted list returns `true`. -/
def allow_loop (domain : DName) (png : Bool) (geo : Option String) :
    List Resolution → Bool
  | [] => true
  | r :: rest =>
    if payload_match r.payload domain then
      if check_is_allow png geo r then true else false
    else allow_loop domain png geo rest

/-- `Inner::is_allow_ipv6`: the group's rule list chained with the
`default` group's rule list, scanned by `allow_loop` (an absent map entry
contributes the empty list). -/
def is_allow_ipv6 (group_rules default_rules : List Resolution) (domain : DName)
    (png : Bool) (geo : Option String) : Bool :=
  allow_loop domain png geo (group_rules ++ default_rules)

/-- Modelled from the spec: the decision equals the directive of the first
rule in the list whose payload matches the domain, and the record is
allowed when no rule matches.  Stated for comparison with the source
translation `is_allow_ipv6`. -/
def first_match_decision (rules : List Resolution) (domain : DName)
    (png : Bool) (geo : Option String) : Bool :=
  match rules.find? (fun r => payload_match r.payload domain) with
  | some r => check_is_allow png geo r
  | none => true

/-! Resource records and the RR cache (`src/cache.rs`). -/

/-- `hickory RecordType`, restricted to the types the pipeline inspects. -/
inductive RType where
  | A
  | AAAA
  | PTR
  | other
deriving DecidableEq

/-- Record data; IPv4 and IPv6 addresses are carried as their numeric
value. -/
inductive RData where
  | a (ip : Nat)
  | aaaa (ip : Nat)
  | ptr (nm : DName)
deriving DecidableEq

/-- A resource record: owner name, type, the raw `ttl` field (the source
stores and compares it directly) and optional data. -/
structure Rec where
  name : DName
  rtype : RType
  ttl : Nat
  rdata : Option RData
deriving DecidableEq

/-- `cache::Inner`: a capacity plus the LRU order of keyed record lists,
most recently used first. -/
structure CacheInner where
  cap : Nat
  entries : List (String × List Rec)
deriving DecidableEq

/-- `Inner::clean_expired`: `rrs.retain(|rr| rr.ttl() as u64 <= now)`,
so the records KEPT are exactly those whose `ttl` field is at most the
current Unix time. -/
def clean_expired (now : Nat) (rrs : List Rec) : List Rec :=
  rrs.filter (fun rr => rr.ttl ≤ now)

/-- `lru::LruCache::put`: insert or replace at the most-recent position,
evicting the least recently used key when a new key overflows the
capacity. -/
def lru_put (c : CacheInner) (domain : String) (rrs : List Rec) : CacheInner :=
  let entries := (domain, rrs) :: c.entries.filter (fun e => !(e.1 == domain))
  CacheInner.mk c.cap (if c.cap < entries.length then entries.dropLast else entries)

/-- `Inner::put`: when the key exists, prune its list with
`clean_expired` and append the new records (touching recency); otherwise
insert a fresh list. -/
def CacheInner.put (c : CacheInner) (now : Nat) (domain : String) (rrs : List Rec) :
    CacheInner :=
  if c.entries.any (fun e => e.1 == domain) then
    let old := (match c.entries.find? (fun e => e.1 == domain) with
      | some e => e.2
      | none => [])
    CacheInner.mk c.cap
      ((domain, clean_expired now old ++ rrs) :: c.entries.filter (fun e => !(e.1 == domain)))
  else lru_put c domain rrs

/-- `Inner::get`: look the key up (touching recency), prune with
`clean_expired`, drop the key and return `none` when the pruned list is
empty, otherwise return the records of the requested type.  Returns the
result together with the updated cache. -/
def CacheInner.get (c : CacheInner) (now : Nat) (domain : String) (rtype : RType) :
    Option (List Rec) × CacheInner :=
  match c.entries.find? (fun e => e.1 == domain) with
  | none => (none, c)
  | some e =>
    let rrs := clean_expired now e.2
    if rrs.isEmpty then
      (none, CacheInner.mk c.cap (c.entries.filter (fun e => !(e.1 == domain))))
    else
      (some (rrs.filter (fun rr => rr.rtype == rtype)),
       CacheInner.mk c.cap ((domain, rrs) :: c.entries.filter (fun e => !(e.1 == domain))))

/-! The AAAA post-filter and the handler pipeline (`src/handler.rs`). -/

/-- The per-answer task results of `Handler::resolution`: an AAAA answer
spawns `config.is_allow_ipv6(group, domain, addr)` (its outcome supplied
by the `oracle`, `none` standing for a failed task), every other answer
spawns a task that immediately returns `true`; `join` maps a failed task
to `false` via `unwrap_or(false)`. -/
def resolution_allows (answers : List Rec) (oracle : DName → Nat → Option Bool) :
    List Bool :=
  answers.map (fun r =>
    (match r.rdata with
     | some (RData.aaaa ip) => oracle r.name ip
     | _ => some true).getD false)

/-- `Handler::resolution`: rebuild the answer list keeping the records
whose task verdict is `true`, in the original order (the source drains
with `enumerate` and indexes the verdict vector; with equal lengths that
is the element-wise zip modelled here). -/
def resolution_filter (answers : List Rec) (oracle : DName → Nat → Option Bool) :
    List Rec :=
  (answers.zip (resolution_allows answers oracle)).filterMap
    (fun p => if p.2 then some p.1 else none)

/-- Modelled from the spec: a record survives the post-filter iff it is
not an AAAA record, or its rule evaluation succeeded with `true`.  Stated
for comparison with the source translation `resolution_filter`. -/
def kept_by_rules (oracle : DName → Nat → Option Bool) (r : Rec) : Bool :=
  match r.rdata with
  | some (RData.aaaa ip) => (oracle r.name ip).getD false
  | _ => true

/-- A DNS query: the owner name as rendered by `Name::to_utf8` plus the
query type. -/
structure Query where
  qname : String
  qtype : RType
deriving DecidableEq

/-- A parsed DNS message, reduced to the parts the pipeline inspects. -/
structure Msg where
  queries : List Query
  answers : List Rec
deriving DecidableEq

/-- `Handler::cache_dns_record`: returns `Ok(())` when the cache is
disabled and otherwise reaches `todo!()`; the panic is modelled as
`none`. -/
def cache_dns_record (cache_enabled : Bool) : Option Unit :=
  if !cache_enabled then some () else none

/-- Outcome of one `Handler::handle` run: a response was serialized and
sent, the query was dropped with a logged error, or the task panicked. -/
inductive HandleOutcome where
  | sent (m : Msg)
  | dropped (e : String)
  | panicked
deriving DecidableEq

/-- `Handler::handle` after request parsing: the hosts stage then the
cache stage answer directly when they produce a message (their results,
flattened through `print_err_and_flatten`, are supplied as options);
otherwise the upstream reply is used, its answers post-filtered when the
request held an AAAA query, then `cache_dns_record` runs before the
response is sent. -/
def handler_handle (req : Msg) (hosts_res cache_res : Option Msg)
    (forward_res : Except String Msg) (oracle : DName → Nat → Option Bool)
    (cache_enabled : Bool) : HandleOutcome :=
  match hosts_res with
  | some res => HandleOutcome.sent res
  | none =>
  match cache_res with
  | some res => HandleOutcome.sent res
  | none =>
  match forward_res with
  | Except.error e => HandleOutcome.dropped e
  | Except.ok res =>
    let res :=
      if req.queries.any (fun q => q.qtype == RType.AAAA) then
        Msg.mk res.queries (resolution_filter res.answers oracle)
      else res
    match cache_dns_record cache_enabled with
    | none => HandleOutcome.panicked
    | some _ => HandleOutcome.sent res

/-! The local host-override stage (`Handler::resolve_from_hosts` and
`Handler::local_reverse_dns_query`). -/

/-- An IP address: IPv4 and IPv6 carried as their numeric value
(`u32` / `u128`). -/
inductive IpAddrM where
  | v4 (n : Nat)
  | v6 (n : Nat)
deriving DecidableEq

/-- Collect a list of optional values, failing when any is `none`
(Rust `collect::<Result<Vec<_>, _>>()`). -/
def seq_option : List (Option α) → Option (List α)
  | [] => some []
  | none :: _ => none
  | some x :: rest => (seq_option rest).map (fun xs => x :: xs)

/-- Value of one decimal digit. -/
def dec_digit (c : Char) : Option Nat :=
  if '0' ≤ c && c ≤ '9' then some (c.toNat - 48) else none

/-- Fold decimal digits left to right. -/
def dec_val_go : List Char → Nat → Option Nat
  | [], acc => some acc
  | c :: cs, acc => match dec_digit c with
    | some d => dec_val_go cs (acc * 10 + d)
    | none => none

/-- Rust `str::parse::<u8>`: non-empty decimal digits with value below
256. -/
def u8_from_chars (cs : List Char) : Option Nat :=
  if cs.isEmpty then none
  else match dec_val_go cs 0 with
    | some n => if n < 256 then some n else none
    | none => none

/-- Value of one hexadecimal digit. -/
def hex_digit (c : Char) : Option Nat :=
  if '0' ≤ c && c ≤ '9' then some (c.toNat - 48)
  else if 'a' ≤ c && c ≤ 'f' then some (c.toNat - 87)
  else if 'A' ≤ c && c ≤ 'F' then some (c.toNat - 55)
  else none

/-- Fold hexadecimal digits left to right. -/
def hex_val_go : List Char → Nat → Option Nat
  | [], acc => some acc
  | c :: cs, acc => match hex_digit c with
    | some d => hex_val_go cs (acc * 16 + d)
    | none => none

/-- Rust `u16::from_str_radix(s, 16)`: non-empty hex digits with value
below 65536. -/
def hex_u16_from_chars (cs : List Char) : Option Nat :=
  if cs.isEmpty then none
  else match hex_val_go cs 0 with
    | some n => if n < 65536 then some n else none
    | none => none

/-- Group a list into consecutive chunks of four, the final chunk possibly
shorter (Rust `slice::chunks(4)`); structural recursion through an
accumulator keeps it kernel-evaluable. -/
def chunks4_go : List α → List α → List (List α)
  | [], acc => if acc.isEmpty then [] else [acc.reverse]
  | x :: xs, acc =>
    if acc.length = 3 then (acc.reverse ++ [x]) :: chunks4_go xs []
    else chunks4_go xs (x :: acc)

/-- Chunks of four. -/
def chunks4 (l : List α) : List (List α) := chunks4_go l []

/-- Rust `str::strip_suffix`. -/
def drop_suffix_ch (s suffix : List Char) : Option (List Char) :=
  if suffix.isSuffixOf s then some (s.take (s.length - suffix.length)) else none

/-- IPv4 part of `Handler::local_reverse_dns_query`: split the remaining
text on dots, parse each part as `u8`, reverse, and build the address
from the first four parts.  The source indexes `parts[0..3]` and panics
when fewer than four parts exist; since a panic emits no record either,
that path is folded into `none` here. -/
def ptr_decode_v4 (s : List Char) : Option IpAddrM :=
  match seq_option ((ch_split s).map u8_from_chars) with
  | none => none
  | some ns =>
    match ns.reverse with
    | a :: b :: c :: d :: _ => some (IpAddrM.v4 (((a * 256 + b) * 256 + c) * 256 + d))
    | _ => none

/-- IPv6 part of `Handler::local_reverse_dns_query`: reverse the nibble
labels, join chunks of four and parse each as a hex `u16`, then build the
address from the first eight words; as for IPv4 the source's
out-of-range indexing panic is folded into `none`. -/
def ptr_decode_v6 (s : List Char) : Option IpAddrM :=
  match seq_option ((chunks4 (ch_split s).reverse).map
      (fun c => hex_u16_from_chars c.flatten)) with
  | none => none
  | some ws =>
    match ws with
    | w0 :: w1 :: w2 :: w3 :: w4 :: w5 :: w6 :: w7 :: _ =>
      some (IpAddrM.v6 (((((((w0 * 65536 + w1) * 65536 + w2) * 65536 + w3) * 65536
        + w4) * 65536 + w5) * 65536 + w6) * 65536 + w7))
    | _ => none

/-- Address decoding of `Handler::local_reverse_dns_query`: strip the
`.in-addr.arpa.` suffix and decode IPv4, else strip `.ip6.arpa.` and
decode IPv6, else no address (the source returns `Ok(())` there). -/
def ptr_decode_addr (qname : String) : Option IpAddrM :=
  match drop_suffix_ch qname.data (".in-addr.arpa.").data with
  | some rest => ptr_decode_v4 rest
  | none =>
    match drop_suffix_ch qname.data (".ip6.arpa.").data with
    | some rest => ptr_decode_v6 rest
    | none => none

/-- `Handler::local_reverse_dns_query` reduced to the record it may push:
decode the query name, look the address up in the host table (`hostname`
oracle, standing for `Inner::get_hostname` over group then default), and
build a PTR record — whose TTL the source never sets, leaving
`Record::new()`'s default 0. -/
def ptr_query_record (hostname : IpAddrM → Option String) (qname : String) :
    Option Rec :=
  match ptr_decode_addr qname with
  | none => none
  | some a =>
    match hostname a with
    | none => none
    | some h =>
      match name_from_ascii h with
      | none => none
      | some hn =>
        some (Rec.mk ((name_from_ascii qname).getD []) RType.PTR 0 (some (RData.ptr hn)))

/-- The record list contributed by one PTR query (errors inside the
reverse lookup are logged and contribute nothing). -/
def local_reverse_dns_query (hostname : IpAddrM → Option String) (qname : String) :
    List Rec :=
  match ptr_query_record hostname qname with
  | some r => [r]
  | none => []

/-- Keep the IPv4 value of an address. -/
def keep_v4 : IpAddrM → Option Nat
  | IpAddrM.v4 n => some n
  | IpAddrM.v6 _ => none

/-- Keep the IPv6 value of an address. -/
def keep_v6 : IpAddrM → Option Nat
  | IpAddrM.v6 n => some n
  | IpAddrM.v4 _ => none

/-- Answers contributed by one query in `Handler::resolve_from_hosts`:
PTR queries go through the reverse lookup; A and AAAA queries consult the
host table (`hosts` oracle, standing for `Inner::get_hosts`), keep the
addresses of the right family, and emit one record per address with
`set_ttl(1)`; other types contribute nothing.  `none` models the `?`
abort of the stage on a name re-parse failure. -/
def host_query_answers (hosts : String → List IpAddrM)
    (hostname : IpAddrM → Option String) (q : Query) : Option (List Rec) :=
  match q.qtype with
  | RType.PTR => some (local_reverse_dns_query hostname q.qname)
  | RType.A =>
    let addrs := (hosts q.qname).filterMap keep_v4
    if addrs.isEmpty then some []
    else (name_from_ascii q.qname).map (fun nm =>
      addrs.map (fun ip => Rec.mk nm RType.A 1 (some (RData.a ip))))
  | RType.AAAA =>
    let addrs := (hosts q.qname).filterMap keep_v6
    if addrs.isEmpty then some []
    else (name_from_ascii q.qname).map (fun nm =>
      addrs.map (fun ip => Rec.mk nm RType.AAAA 1 (some (RData.aaaa ip))))
  | RType.other => some []

/-- `Handler::resolve_from_hosts`: the concatenated answers of all
queries, in query order; a failing A/AAAA branch aborts the whole stage
(the caller then logs and falls through). -/
def resolve_from_hosts (hosts : String → List IpAddrM)
    (hostname : IpAddrM → Option String) : List Query → Option (List Rec)
  | [] => some []
  | q :: qs =>
    match host_query_answers hosts hostname q, resolve_from_hosts hosts hostname qs with
    | some l, some ls => some (l ++ ls)
    | _, _ => none

/-! The DoT transport (`src/resolves/dot.rs`). -/

/-- Outcome of the 100 ms liveness read on a reused stream:
`Ok(Ok(0))` — a clean EOF — or anything else (data, transport error,
timeout), which ends the probing loop. -/
inductive ProbeObs where
  | eofClean
  | live
deriving DecidableEq

/-- The retry loop of `DoT::resolve` once the initial take was a reused
stream: bail out with an error when `retry_count` exceeds 3; a non-EOF
probe keeps the current stream; a clean EOF takes the next stream from
the pool (an empty pool builds a fresh stream, which ends the loop
without incrementing the counter), increments `retry_count` and loops.
Returns the final `retry_count` on success and `none` on the bail. -/
def dot_probe_go (count : Nat) (cur : ProbeObs) (pool : List ProbeObs) : Option Nat :=
  if count > 3 then none
  else
    match cur with
    | ProbeObs.live => some count
    | ProbeObs.eofClean =>
      match pool with
      | [] => some count
      | q :: rest => dot_probe_go (count + 1) q rest

/-- The probing phase of `DoT::resolve`: the pool is the queue of reusable
streams for the target URL, each entry carrying what its liveness probe
would observe; an empty pool builds a fresh stream and skips probing
entirely. -/
def dot_probe (pool : List ProbeObs) : Option Nat :=
  match pool with
  | [] => some 0
  | p :: rest => dot_probe_go 0 p rest

/-- The I/O outcomes `DoT::resolve` encounters after probing: the three
writes, the 2-byte length read (`none` is an I/O failure) and the body
read (`none` is an I/O failure, `some bytes` the received body). -/
structure DotNet where
  writeLenOk : Bool
  writeBodyOk : Bool
  flushOk : Bool
  lenRead : Option Nat
  bodyRead : Option (List Nat)
deriving DecidableEq

/-- How one `DoT::resolve` call ends: a reply, an error value propagated
to the caller, or process termination. -/
inductive DotOutcome where
  | ok (resp : List Nat)
  | fail
  | exits
deriving DecidableEq

/-- `DoT::resolve`: probe phase, then write the length-prefixed query,
then read the reply.  A failed read of the 2-byte reply length is mapped
through `map_err(|_| -> ! { std::process::exit(1) })` — the process
terminates instead of an error being returned; every other failure
produces an error value. -/
def dot_resolve (pool : List ProbeObs) (net : DotNet) : DotOutcome :=
  match dot_probe pool with
  | none => DotOutcome.fail
  | some _ =>
    if !net.writeLenOk then DotOutcome.fail
    else if !net.writeBodyOk then DotOutcome.fail
    else if !net.flushOk then DotOutcome.fail
    else
      match net.lenRead with
      | none => DotOutcome.exits
      | some _ =>
        match net.bodyRead with
        | none => DotOutcome.fail
        | some resp =>
          if resp.isEmpty then DotOutcome.fail else DotOutcome.ok resp

/-! Group attribution (`Inner::attribute_group`, `src/config/group.rs`). -/

/-- An entry of a group's range list: a single address or a
`std::ops::Range` of addresses (`parse_ip_range` maps the endpoints of an
`a-b` range and both CIDR bounds through `to_ipv6_mapped` for IPv4). -/
inductive IpRange where
  | single (addr : IpAddrM)
  | range (start stop : IpAddrM)
deriving DecidableEq

/-- Rust's derived `Ord` on `IpAddr`: every V4 sorts below every V6, and
addresses of one family compare numerically. -/
def ip_lt : IpAddrM → IpAddrM → Bool
  | IpAddrM.v4 a, IpAddrM.v4 b => a < b
  | IpAddrM.v4 _, IpAddrM.v6 _ => true
  | IpAddrM.v6 _, IpAddrM.v4 _ => false
  | IpAddrM.v6 a, IpAddrM.v6 b => a < b

/-- Non-strict companion of `ip_lt`. -/
def ip_le : IpAddrM → IpAddrM → Bool
  | IpAddrM.v4 a, IpAddrM.v4 b => a ≤ b
  | IpAddrM.v4 _, IpAddrM.v6 _ => true
  | IpAddrM.v6 _, IpAddrM.v4 _ => false
  | IpAddrM.v6 a, IpAddrM.v6 b => a ≤ b

/-- `Ipv4Addr::to_ipv6_mapped` lifted to `IpAddr` (`group.rs`): an IPv4
address `n` becomes `::ffff:n`; IPv6 addresses pass through. -/
def to_ipv6_mapped : IpAddrM → IpAddrM
  | IpAddrM.v4 n => IpAddrM.v6 (65535 * 4294967296 + n)
  | IpAddrM.v6 n => IpAddrM.v6 n

/-- `match_ipaddr` (`config/mod.rs`): compare across families via the
IPv4-mapped form, within one family directly. -/
def match_ipaddr : IpAddrM → IpAddrM → Bool
  | IpAddrM.v4 a, IpAddrM.v6 b => to_ipv6_mapped (IpAddrM.v4 a) == IpAddrM.v6 b
  | IpAddrM.v6 b, IpAddrM.v4 a => to_ipv6_mapped (IpAddrM.v4 a) == IpAddrM.v6 b
  | a, b => a == b

/-- `std::ops::Range::is_empty`: `!(start < end)`. -/
def range_is_empty (s e : IpAddrM) : Bool := !(ip_lt s e)

/-- `std::ops::Range::contains`: `start <= x && x < end` — the end is
exclusive. -/
def range_has (s e x : IpAddrM) : Bool := ip_le s x && ip_lt x e

/-- One arm of the range scan in `Inner::attribute_group`: singles go
through `match_ipaddr`; ranges reject when empty, canonicalize an IPv4
client address to its IPv6-mapped form, and use `Range::contains`. -/
def ip_range_matches (r : IpRange) (addr : IpAddrM) : Bool :=
  match r with
  | IpRange.single s => match_ipaddr s addr
  | IpRange.range s e =>
    if range_is_empty s e then false
    else
      match addr with
      | IpAddrM.v4 _ => range_has s e (to_ipv6_mapped addr)
      | IpAddrM.v6 _ => range_has s e addr

/-- `Inner::attribute_group`: the first group (in map-iteration order,
modelled as list order) one of whose ranges matches the client address;
`default` when none does. -/
def attribute_group (groups : List (String × List IpRange)) (addr : IpAddrM) :
    String :=
  match groups.find? (fun g => g.2.any (fun r => ip_range_matches r addr)) with
  | some g => g.1
  | none => "default"

/-! Helper lemmas. -/

theorem allow_loop_eq_first (domain : DName) (png : Bool) (geo : Option String) :
    ∀ rules : List Resolution,
      allow_loop domain png geo rules = first_match_decision rules domain png geo := by
  intro rules
  induction rules with
  | nil => rfl
  | cons r rest ih =>
    simp only [allow_loop, first_match_decision, List.find?]
    cases h : payload_match r.payload domain
    · simpa [h, first_match_decision] using ih
    · cases hc : check_is_allow png geo r <;> simp [h, hc]

theorem resolution_allows_cons (o : DName → Nat → Option Bool) (r : Rec) (rest : List Rec) :
    resolution_allows (r :: rest) o = kept_by_rules o r :: resolution_allows rest o := by
  cases hr : r.rdata with
  | none => simp [resolution_allows, kept_by_rules, hr]
  | some d => cases d <;> simp [resolution_allows, kept_by_rules, hr]

/-! Claim theorems. -/

/-- C1: the claim states `cache.get` never returns a record whose stored
expiry is at most the current time because pruning removes those records.
The source's `clean_expired` retains exactly the records with
`ttl ≤ now`, so `get` returns an already-expired record: with the cache
holding one A record whose `ttl` field is 0 and the clock at 100, `get`
returns that record. -/
theorem cache_get_returns_expired_record :
    (CacheInner.get
        (CacheInner.mk 10 [("a.", [Rec.mk ["a"] RType.A 0 (some (RData.a 1))])])
        100 "a." RType.A).1
      = some [Rec.mk ["a"] RType.A 0 (some (RData.a 1))]
    ∧ (Rec.mk ["a"] RType.A 0 (some (RData.a 1))).ttl ≤ 100 := by
  decide

/-- C5: the claim states that after `put(domain, [r])` with a non-expired
`r` of type `t`, `get(domain, t)` returns a list containing `r`.  The
inverted prune predicate removes the fresh record during `get`: with the
clock at 5, putting a record with `ttl` 15 and reading it back yields
`none`. -/
theorem cache_put_fresh_record_lost :
    (CacheInner.get
        (CacheInner.put (CacheInner.mk 10 []) 5 "a."
          [Rec.mk ["a"] RType.A 15 (some (RData.a 1))])
        5 "a." RType.A).1 = none := by
  decide

/-- C2: the AAAA allow decision is first-match-wins over the group's rule
list followed by the default group's rule list — the loop of
`is_allow_ipv6` computes exactly the directive verdict of the first rule
whose payload matches the domain, and `true` (record kept) when no rule
matches. -/
theorem is_allow_ipv6_first_match :
    ∀ (group_rules default_rules : List Resolution) (domain : DName)
      (png : Bool) (geo : Option String),
      is_allow_ipv6 group_rules default_rules domain png geo
        = first_match_decision (group_rules ++ default_rules) domain png geo := by
  intro g d domain png geo
  exact allow_loop_eq_first domain png geo (g ++ d)

/-- C3: the AAAA post-filter returns the input answers restricted, in the
original order, to the kept records — non-AAAA records kept
unconditionally, an AAAA record kept iff its task returned `true`, a
failed task (`none`) counting as deny. -/
theorem resolution_filter_order_and_policy :
    ∀ (answers : List Rec) (oracle : DName → Nat → Option Bool),
      resolution_filter answers oracle = answers.filter (kept_by_rules oracle) := by
  intro answers oracle
  induction answers with
  | nil => rfl
  | cons r rest ih =>
    simp only [resolution_filter] at ih ⊢
    rw [resolution_allows_cons, List.zip_cons_cons, List.filterMap_cons, List.filter_cons]
    cases hk : kept_by_rules oracle r <;> simp [hk, ih]

/-- C6: the claim states that an error value is the resolver's only
failure outcome.  When reading the 2-byte reply length fails,
`DoT::resolve` maps the error to `std::process::exit(1)`: with an empty
pool (fresh stream), successful writes and a failing length read, the
call terminates the process instead of returning an error. -/
theorem dot_resolve_exits_on_len_read_failure :
    dot_resolve [] (DotNet.mk true true true none (some [])) = DotOutcome.exits := by
  rfl

/-- C7 counterexample: the claim says the liveness loop gives up with an
error after exactly 3 retries, which on a pool of four clean-EOF streams
would already error; the source instead performs a fourth take (which
builds a fresh stream) and proceeds with `retry_count` 3. -/
theorem dot_probe_fourth_retry_proceeds :
    dot_probe [ProbeObs.eofClean, ProbeObs.eofClean, ProbeObs.eofClean, ProbeObs.eofClean]
      = some 3 := by
  rfl

theorem dot_probe_go_top (cur : ProbeObs) (pool : List ProbeObs) :
    dot_probe_go 4 cur pool = none := by
  cases cur <;> cases pool <;> simp [dot_probe_go]

/-- C7 amended: the loop errors exactly when the pool supplies at least
five reused streams and the first four probed all observe a clean EOF —
the bail fires once `retry_count` exceeds 3, i.e. after four retries, a
fifth pooled stream having been taken but never probed; taking a freshly
built stream (empty pool) ends the probing immediately with zero
retries. -/
theorem dot_probe_gives_up_after_four :
    dot_probe [] = some 0
    ∧ ∀ pool : List ProbeObs,
        dot_probe pool = none ↔
          (5 ≤ pool.length ∧ ∀ p ∈ pool.take 4, p = ProbeObs.eofClean) := by
  refine ⟨rfl, ?_⟩
  intro pool
  rcases pool with _ | ⟨p1, _ | ⟨p2, _ | ⟨p3, _ | ⟨p4, _ | ⟨p5, rest⟩⟩⟩⟩⟩
  · simp [dot_probe]
  · cases p1 <;> simp [dot_probe, dot_probe_go]
  · cases p1 <;> cases p2 <;> simp [dot_probe, dot_probe_go]
  · cases p1 <;> cases p2 <;> cases p3 <;> simp [dot_probe, dot_probe_go]
  · cases p1 <;> cases p2 <;> cases p3 <;> cases p4 <;> simp [dot_probe, dot_probe_go]
  · cases p1 <;> cases p2 <;> cases p3 <;> cases p4 <;>
      simp [dot_probe, dot_probe_go, dot_probe_go_top, Nat.le_add_right]

/-- Witness for the C7 amended characterization at a pool of five
clean-EOF streams. -/
theorem dot_probe_gives_up_after_four_witness :
    dot_probe [ProbeObs.eofClean, ProbeObs.eofClean, ProbeObs.eofClean,
      ProbeObs.eofClean, ProbeObs.eofClean] = none :=
  (dot_probe_gives_up_after_four.2
    [ProbeObs.eofClean, ProbeObs.eofClean, ProbeObs.eofClean,
      ProbeObs.eofClean, ProbeObs.eofClean]).mpr (by decide)

/-- C4 counterexample: the claim states `cache_dns_record` returns
success both when the cache is disabled and when it is enabled; with the
cache enabled it reaches `todo!()` (modelled `none`) and the pipeline
panics instead of sending. -/
theorem cache_dns_record_enabled_panics :
    cache_dns_record true = none
    ∧ handler_handle (Msg.mk [] []) none none (Except.ok (Msg.mk [] []))
        (fun _ _ => some true) true = HandleOutcome.panicked := by
  decide

/-- C4 amended: `cache_dns_record` never touches the RR cache (it takes
no cache state at all); it returns success exactly when the cache is
disabled, in which case the forwarded pipeline proceeds to serialize and
send, and it panics via `todo!()` when the cache is enabled, in which
case nothing is sent. -/
theorem cache_dns_record_stub_behavior :
    ∀ (b : Bool) (req res : Msg) (oracle : DName → Nat → Option Bool),
      (cache_dns_record b = some () ↔ b = false)
      ∧ handler_handle req none none (Except.ok res) oracle false
          = HandleOutcome.sent
              (if req.queries.any (fun q => q.qtype == RType.AAAA) then
                Msg.mk res.queries (resolution_filter res.answers oracle)
               else res)
      ∧ handler_handle req none none (Except.ok res) oracle true
          = HandleOutcome.panicked := by
  intro b req res oracle
  refine ⟨?_, ?_, ?_⟩
  · cases b <;> simp [cache_dns_record]
  · simp only [handler_handle, cache_dns_record]
    cases hq : req.queries.any (fun q => q.qtype == RType.AAAA) <;> simp [hq]
  · simp [handler_handle, cache_dns_record]

/-- Witness applying the C4 amended theorem at the disabled-cache case. -/
theorem cache_dns_record_stub_behavior_witness :
    cache_dns_record false = some () :=
  (cache_dns_record_stub_behavior false (Msg.mk [] []) (Msg.mk [] [])
    (fun _ _ => some true)).1.mpr rfl

theorem ip_lt_of_le_of_lt {a b c : IpAddrM} (h1 : ip_le a b = true)
    (h2 : ip_lt b c = true) : ip_lt a c = true := by
  cases a <;> cases b <;> cases c <;> simp [ip_le, ip_lt] at * <;> omega

theorem range_has_of_empty {s e x : IpAddrM} (h : range_is_empty s e = true) :
    range_has s e x = false := by
  cases hc : range_has s e x
  · rfl
  · exfalso
    rw [range_has, Bool.and_eq_true] at hc
    have hlt := ip_lt_of_le_of_lt hc.1 hc.2
    rw [range_is_empty, hlt] at h
    exact absurd h (by decide)

/-- C8 amended: membership in a configured `start-end` range is inclusive
of the start and exclusive of the end — the source stores
`std::ops::Range` and tests `contains`, so after canonicalizing an IPv4
client address to its IPv6-mapped form the range matches exactly when
`start ≤ a < end`, and `attribute_group` assigns the group on exactly
those addresses (an address equal to `end` falls through to
`default`). -/
theorem attribute_group_range_half_open (g : String) (s e a : IpAddrM) :
    ip_range_matches (IpRange.range s e) a
      = (ip_le s (to_ipv6_mapped a) && ip_lt (to_ipv6_mapped a) e)
    ∧ attribute_group [(g, [IpRange.range s e])] a
      = (if ip_le s (to_ipv6_mapped a) && ip_lt (to_ipv6_mapped a) e then g
         else "default") := by
  have h1 : ip_range_matches (IpRange.range s e) a
      = (ip_le s (to_ipv6_mapped a) && ip_lt (to_ipv6_mapped a) e) := by
    cases hemp : range_is_empty s e
    · cases a <;> simp [ip_range_matches, hemp, range_has, to_ipv6_mapped]
    · have hx := range_has_of_empty (s := s) (e := e) (x := to_ipv6_mapped a) hemp
      rw [range_has] at hx
      cases a <;> simp_all [ip_range_matches, hemp, to_ipv6_mapped]
  refine ⟨h1, ?_⟩
  rw [attribute_group]
  simp only [List.find?, List.any, h1, Bool.or_false]
  cases hb : (ip_le s (to_ipv6_mapped a) && ip_lt (to_ipv6_mapped a) e) <;> simp [hb]

/-- C8 counterexample: a `10.0.0.1-10.0.0.5` office range (endpoints
IPv6-mapped as `parse_ip_range` stores them) does not match the client
address 10.0.0.5 even though it equals the range's end and the start is
below it; the claim says such an address is attributed to the group. -/
theorem attribute_group_excludes_range_end :
    attribute_group
        [("office", [IpRange.range (to_ipv6_mapped (IpAddrM.v4 167772161))
            (to_ipv6_mapped (IpAddrM.v4 167772165))])]
        (IpAddrM.v4 167772165) = "default"
    ∧ ip_le (to_ipv6_mapped (IpAddrM.v4 167772161))
        (to_ipv6_mapped (IpAddrM.v4 167772165)) = true
    ∧ ¬ ("default" = "office") := by
  decide

theorem zone_of_case_iff (z nm : DName) : zone_of_case z nm = true ↔ z <:+ nm := by
  simp [zone_of_case, List.isSuffixOf_iff_suffix]

theorem name_eq_ci_refl (a : DName) : name_eq_ci a a = true := by
  simp [name_eq_ci]

theorem name_eq_ci_length {a b : DName} (h : name_eq_ci a b = true) :
    a.length = b.length := by
  rw [name_eq_ci, beq_iff_eq] at h
  simpa using congrArg List.length h

/-- C10 amended: payload matching is case-sensitive on labels.  `All`
matches every domain; `Exact(d)` matches exactly when the label lists are
equal (the source uses hickory's case-sensitive `eq_case`, not
case-insensitive equality as claimed); `Suffix(".d")` matches `d` itself
and every sub-label of `d`, comparing labels case-sensitively; and
`Wildcard("*.d")` matches exactly the strict sub-labels of `d`,
case-sensitively (its case-insensitive self-exclusion is subsumed by the
strictness). -/
theorem payload_match_variants (s : String) (d dom : DName) :
    payload_match Payload.all dom = true
    ∧ (starts_dot s.data = false → name_from_chars s.data = some d →
        is_wildcard d = false →
        (payload_match (Payload.dom s) dom = true ↔ d = dom))
    ∧ (starts_dot s.data = true →
        name_from_chars (drop_leading_dots s.data) = some d →
        (payload_match (Payload.dom s) dom = true ↔
          (dom = d ∨ ∃ pre, pre ≠ [] ∧ dom = pre ++ d)))
    ∧ (starts_dot s.data = false → name_from_chars s.data = some d →
        is_wildcard d = true →
        (payload_match (Payload.dom s) dom = true ↔
          ∃ pre, pre ≠ [] ∧ dom = pre ++ base_name d)) := by
  refine ⟨rfl, ?_, ?_, ?_⟩
  · intro hsd hparse hwild
    have hq : payload_match (Payload.dom s) dom = eq_case d dom := by
      simp [payload_match, hsd, hparse, hwild]
    rw [hq, eq_case, beq_iff_eq]
  · intro hsd hparse
    have hq : payload_match (Payload.dom s) dom = zone_of_case d dom := by
      simp [payload_match, hsd, hparse]
    rw [hq, zone_of_case_iff]
    constructor
    · rintro ⟨t, ht⟩
      cases t with
      | nil => exact Or.inl (by simpa using ht.symm)
      | cons x xs => exact Or.inr ⟨x :: xs, by simp, ht.symm⟩
    · rintro (rfl | ⟨pre, hne, rfl⟩)
      · exact ⟨[], by simp⟩
      · exact ⟨pre, rfl⟩
  · intro hsd hparse hwild
    have hq : payload_match (Payload.dom s) dom
        = (zone_of_case (base_name d) dom && !(name_eq_ci (base_name d) dom)) := by
      simp [payload_match, hsd, hparse, hwild]
    rw [hq, Bool.and_eq_true, zone_of_case_iff]
    constructor
    · rintro ⟨⟨t, ht⟩, hn⟩
      cases t with
      | nil =>
        exfalso
        rw [Bool.not_eq_eq_eq_not, Bool.not_true] at hn
        rw [← ht] at hn
        simp [name_eq_ci_refl] at hn
      | cons x xs => exact ⟨x :: xs, by simp, ht.symm⟩
    · rintro ⟨pre, hne, rfl⟩
      refine ⟨⟨pre, rfl⟩, ?_⟩
      rw [Bool.not_eq_eq_eq_not, Bool.not_true]
      cases hci : name_eq_ci (base_name d) (pre ++ base_name d)
      · rfl
      · exfalso
        have := name_eq_ci_length hci
        rw [List.length_append] at this
        have : pre.length = 0 := by omega
        exact hne (List.length_eq_zero.mp this)

/-- C10 counterexample: the claim says `Exact(d)` matches under
case-insensitive FQDN equality; the source compares with the
case-sensitive `eq_case`, so the payload `Example.com` fails to match
the (case-insensitively equal) answer name `example.com`. -/
theorem payload_exact_not_case_insensitive :
    payload_match (Payload.dom "Example.com") ["example", "com"] = false
    ∧ name_eq_ci ["Example", "com"] ["example", "com"] = true
    ∧ name_from_ascii "Example.com" = some ["Example", "com"] := by
  decide

/-- Witness for the C10 amended characterization: the wildcard payload
`*.example.com` on the answer name `www.example.com`. -/
theorem payload_match_variants_witness :
    payload_match (Payload.dom "*.example.com") ["www", "example", "com"] = true ↔
      ∃ pre, pre ≠ [] ∧
        (["www", "example", "com"] : DName) = pre ++ base_name ["*", "example", "com"] :=
  (payload_match_variants "*.example.com" ["*", "example", "com"]
    ["www", "example", "com"]).2.2.2 (by decide) (by decide) (by decide)

theorem ptr_query_record_shape (hostname : IpAddrM → Option String) (qn : String)
    (r : Rec) (h : ptr_query_record hostname qn = some r) :
    r.rtype = RType.PTR ∧ r.ttl = 0 := by
  unfold ptr_query_record at h
  split at h
  · cases h
  · split at h
    · cases h
    · split at h
      · cases h
      · cases h
        exact ⟨rfl, rfl⟩

theorem local_reverse_dns_query_shape (hostname : IpAddrM → Option String)
    (qn : String) (r : Rec) (h : r ∈ local_reverse_dns_query hostname qn) :
    r.rtype = RType.PTR ∧ r.ttl = 0 := by
  unfold local_reverse_dns_query at h
  cases hq : ptr_query_record hostname qn with
  | none =>
    rw [hq] at h
    simp at h
  | some r0 =>
    rw [hq] at h
    simp at h
    subst h
    exact ptr_query_record_shape hostname qn r hq

theorem host_query_answers_ttl (hosts : String → List IpAddrM)
    (hostname : IpAddrM → Option String) (q : Query) (l : List Rec) (r : Rec)
    (hl : host_query_answers hosts hostname q = some l) (hr : r ∈ l) :
    ((r.rtype = RType.A ∨ r.rtype = RType.AAAA) → r.ttl = 1)
    ∧ (r.rtype = RType.PTR → r.ttl = 0) := by
  rcases q with ⟨qn, qt⟩
  cases qt with
  | PTR =>
    simp only [host_query_answers] at hl
    cases hl
    have hs := local_reverse_dns_query_shape hostname qn r hr
    refine ⟨?_, fun _ => hs.2⟩
    intro hA
    rcases hA with hA | hA <;> rw [hs.1] at hA <;> cases hA
  | A =>
    simp only [host_query_answers] at hl
    split at hl
    · cases hl
      simp at hr
    · rcases hp : name_from_ascii qn with _ | nm
      · rw [hp] at hl
        cases hl
      · rw [hp] at hl
        simp only [Option.map_some'] at hl
        cases hl
        rw [List.mem_map] at hr
        obtain ⟨ip, _, hrec⟩ := hr
        subst hrec
        exact ⟨fun _ => rfl, fun hptr => by cases hptr⟩
  | AAAA =>
    simp only [host_query_answers] at hl
    split at hl
    · cases hl
      simp at hr
    · rcases hp : name_from_ascii qn with _ | nm
      · rw [hp] at hl
        cases hl
      · rw [hp] at hl
        simp only [Option.map_some'] at hl
        cases hl
        rw [List.mem_map] at hr
        obtain ⟨ip, _, hrec⟩ := hr
        subst hrec
        exact ⟨fun _ => rfl, fun hptr => by cases hptr⟩
  | other =>
    simp only [host_query_answers] at hl
    cases hl
    simp at hr

/-- C9 amended: the A and AAAA answers of the local host-override stage
carry TTL 1 (`set_ttl(1)`), while PTR override answers carry TTL 0 — the
source never sets a TTL on the PTR record, so `Record::new()`'s default
of 0 remains. -/
theorem host_override_ttl_amended (hosts : String → List IpAddrM)
    (hostname : IpAddrM → Option String) (queries : List Query) (ans : List Rec)
    (r : Rec) (h : resolve_from_hosts hosts hostname queries = some ans)
    (hr : r ∈ ans) :
    ((r.rtype = RType.A ∨ r.rtype = RType.AAAA) → r.ttl = 1)
    ∧ (r.rtype = RType.PTR → r.ttl = 0) := by
  induction queries generalizing ans with
  | nil =>
    cases h
    simp at hr
  | cons q qs ih =>
    simp only [resolve_from_hosts] at h
    split at h
    · rename_i l ls h1 h2
      cases h
      rcases List.mem_append.mp hr with hm | hm
      · exact host_query_answers_ttl hosts hostname q l r h1 hm
      · exact ih ls h2 hm
    · cases h

/-- C9 counterexample: the claim says PTR override answers also carry
TTL 1; with a host table mapping 10.0.0.1 to `router.lan.`, the PTR
query for `1.0.0.10.in-addr.arpa.` yields a record whose TTL is 0. -/
theorem ptr_override_ttl_is_zero :
    resolve_from_hosts (fun _ => [])
        (fun a => if a = IpAddrM.v4 167772161 then some "router.lan." else none)
        [Query.mk "1.0.0.10.in-addr.arpa." RType.PTR]
      = some [Rec.mk ["1", "0", "0", "10", "in-addr", "arpa"] RType.PTR 0
          (some (RData.ptr ["router", "lan"]))]
    ∧ (Rec.mk ["1", "0", "0", "10", "in-addr", "arpa"] RType.PTR 0
        (some (RData.ptr ["router", "lan"]))).ttl ≠ 1 := by
  decide

/-- Witness applying the C9 amended theorem to the concrete PTR override
above. -/
theorem host_override_ttl_amended_witness :
    (((Rec.mk ["1", "0", "0", "10", "in-addr", "arpa"] RType.PTR 0
        (some (RData.ptr ["router", "lan"]))).rtype = RType.A
      ∨ (Rec.mk ["1", "0", "0", "10", "in-addr", "arpa"] RType.PTR 0
          (some (RData.ptr ["router", "lan"]))).rtype = RType.AAAA) →
      (Rec.mk ["1", "0", "0", "10", "in-addr", "arpa"] RType.PTR 0
        (some (RData.ptr ["router", "lan"]))).ttl = 1)
    ∧ ((Rec.mk ["1", "0", "0", "10", "in-addr", "arpa"] RType.PTR 0
        (some (RData.ptr ["router", "lan"]))).rtype = RType.PTR →
      (Rec.mk ["1", "0", "0", "10", "in-addr", "arpa"] RType.PTR 0
        (some (RData.ptr ["router", "lan"]))).ttl = 0) :=
  host_override_ttl_amended (fun _ => [])
    (fun a => if a = IpAddrM.v4 167772161 then some "router.lan." else none)
    [Query.mk "1.0.0.10.in-addr.arpa." RType.PTR]
    [Rec.mk ["1", "0", "0", "10", "in-addr", "arpa"] RType.PTR 0
      (some (RData.ptr ["router", "lan"]))]
    (Rec.mk ["1", "0", "0", "10", "in-addr", "arpa"] RType.PTR 0
      (some (RData.ptr ["router", "lan"])))
    (by decide) (by decide)
